import Mathlib

/-!
Verification of the embedded SQLite storage subsystem of the
incremental-reading Obsidian plugin: value coercion, result formatting,
the condition builder, the INSERT composer, and the repository's
persistence / self-write-suppression protocol
(`src/lib/repository.ts`, `src/db/query-composer/classes/Query.ts`,
`src/db/query-composer/classes/InsertQuery.ts`).

The embedding is shallow: the TypeScript methods become Lean functions,
the repository's mutable fields become an explicit `RepoState` record,
the sql.js engine binding (construct-empty, construct-from-bytes,
`exec`, export-to-bytes) is a black-box parameter `Engine`, and thrown
exceptions become `Except` results.
-/

namespace IncrementalReading

/-- An engine cell value (sql.js `SqlValue` restricted to the shapes the
repository produces: strings, numbers, NULL). -/
inductive Cell where
  | str (s : String)
  | num (n : Int)
  | null
deriving DecidableEq, Repr

/-- A host-language primitive, as accepted by `query`/`mutate`
(`Primitive` in `src/lib/utility-types`): the runtime types the
`coerceParams` switch distinguishes. `sym s` stands for `Symbol(s)`. -/
inductive Primitive where
  | str (s : String)
  | num (n : Int)
  | bool (b : Bool)
  | sym (s : String)
  | undef
  | null
deriving DecidableEq, Repr

/-- One arm of the `switch (typeof param)` in
`SQLiteRepository.coerceParams`: boolean → `Number(param)`,
symbol → `param.toString()` (JS renders `Symbol(x).toString()` as
`"Symbol(x)"`), undefined → null, string/number/null → unchanged. -/
def coerceOne : Primitive → Cell
  | .bool b => .num (if b then 1 else 0)
  | .sym s => .str ("Symbol(" ++ s ++ ")")
  | .undef => .null
  | .str s => .str s
  | .num n => .num n
  | .null => .null

/-- `SQLiteRepository.coerceParams`: `params.map(...)` with the switch
above. -/
def coerceParams (params : List Primitive) : List Cell :=
  params.map coerceOne

/-- One sql.js execution result: `{ columns: string[], values: SqlValue[][] }`. -/
structure QueryExecResult where
  columns : List String
  values : List (List Cell)
deriving DecidableEq, Repr

/-- A row object, as built by `formatResult`: key/value pairs in
insertion order (a JS object with string keys). -/
abbrev Obj := List (String × Cell)

/-- Overwriting one entry of a row object: the entry whose key is `k`
gets the new value `v`, any other entry stays. -/
def overwriteEntry (k : String) (v : Cell) (p : String × Cell) :
    String × Cell :=
  if p.1 = k then (k, v) else p

/-- `Object.assign(acc, { [k]: v })`: overwrite the value of an existing
key in place, otherwise append the new key at the end. -/
def objInsert (acc : Obj) (k : String) (v : Cell) : Obj :=
  if acc.any (fun p => decide (p.1 = k)) then
    acc.map (overwriteEntry k v)
  else acc ++ [(k, v)]

/-- JS property access `obj[k]` on a row object: the value stored at
key `k`, or `none` (undefined) when the key is absent. -/
def objLookup (k : String) : Obj → Option Cell
  | [] => none
  | (a, v) :: rest => if k = a then some v else objLookup k rest

/-- The key `columns[i]` used by the reduce in `formatResult`: JS
indexing past the end yields `undefined`, which as a computed property
name becomes the string key `"undefined"`. -/
def keyAt (columns : List String) (i : Nat) : String :=
  (columns.get? i).getD "undefined"

/-- The body of `row.reduce((acc, cell, i) => Object.assign(acc,
{ [columns[i]]: cell }), {})`: fold over the cells of one row carrying
the running index. -/
def rowReduce (columns : List String) : List Cell → Nat → Obj → Obj
  | [], _, acc => acc
  | cell :: rest, i, acc =>
      rowReduce columns rest (i + 1) (objInsert acc (keyAt columns i) cell)

/-- One formatted row of `SQLiteRepository.formatResult`. -/
def formatRow (columns : List String) (row : List Cell) : Obj :=
  rowReduce columns row 0 []

/-- `SQLiteRepository.formatResult`: map every value row of one engine
result to a row object keyed by column names. -/
def formatResult (result : QueryExecResult) : List Obj :=
  result.values.map (formatRow result.columns)

/-- The `Conjunction` type of the query composer: the tag on a chained
condition. -/
inductive Conjunction where
  | WHERE
  | AND
  | OR
deriving DecidableEq, Repr

/-- The shared mutable accumulator state the builder closures of
`Query.createConditions` thread through every chained call: the bind
parameter list `params` and the condition tree `conditions`
(`[string, ...[Conjunction, string][]] | null`). -/
structure BuilderState where
  params : List Cell
  conditions : Option (String × List (Conjunction × String))
deriving DecidableEq, Repr

/-- `Query.createCondition`: build
`` `${column} ${comparator} $${params.length + 1}` ``, install it in the
condition tree (throwing on a repeated WHERE or on a dangling AND/OR,
before any mutation of `params`), then push the compare value. The two
`throw`s become `Except.error` carrying the source's messages. A
comparator method such as `.eq` is `createCondition` applied with its
comparator string (`"="` for `eq`, `"<>"` for `neq`, and so on). -/
def createCondition (column : String) (conjunction : Conjunction)
    (st : BuilderState) (comparator : String) (compareValue : Cell) :
    Except String BuilderState :=
  let condition :=
    column ++ " " ++ comparator ++ " $" ++ Nat.repr (st.params.length + 1)
  match conjunction with
  | .WHERE =>
      match st.conditions with
      | some _ =>
          .error "WHERE should not be called multiple times in one query"
      | none =>
          .ok { params := st.params ++ [compareValue],
                conditions := some (condition, []) }
  | conj =>
      match st.conditions with
      | none =>
          .error "AND or OR called without a preexisting WHERE; this shouldn't happen."
      | some (first, rest) =>
          .ok { params := st.params ++ [compareValue],
                conditions := some (first, rest ++ [(conj, condition)]) }

/-- The flat list of condition strings of a condition tree, in the
order they were appended. -/
def condStrings : Option (String × List (Conjunction × String)) → List String
  | none => []
  | some (first, rest) => first :: rest.map Prod.snd

/-- Comma-join of SQL fragments, as the composed query text uses
between column names and between value groups. -/
def joinComma : List String → String
  | [] => ""
  | [x] => x
  | x :: rest => x ++ ", " ++ joinComma rest

/-- Modelled from the spec: one parenthesized value-placeholder group
of an INSERT, `(?, ?, …)` with one placeholder per declared column.
`InsertQuery` in the source is an empty subclass of `Query`; its
`columns`/`values`/`build` implementation is not among the repository's
given files, so this and the next three definitions follow the spec's
section 4.4 and the INSERT test's expected output. -/
def placeholderGroup (k : Nat) : String :=
  "(" ++ joinComma (List.replicate k "?") ++ ")"

/-- Modelled from the spec: the value groups of an INSERT — one
placeholder group per value row. -/
def insertGroups (cols : List String) (rows : List Obj) : List String :=
  rows.map (fun _ => placeholderGroup cols.length)

/-- Modelled from the spec: the INSERT bind parameters, flattened
row-major in the declared column order (each row object contributes its
value for every declared column, in column order). -/
def insertParams (cols : List String) (rows : List Obj) : List Cell :=
  (rows.map (fun row =>
    cols.map (fun c => (objLookup c row).getD Cell.null))).flatten

/-- Modelled from the spec: `InsertQuery.build()` — the emitted INSERT
text (`INSERT INTO <table> (<cols>) VALUES (?, ?), …`) and the
accumulated parameters. -/
def insertBuild (table : String) (cols : List String) (rows : List Obj) :
    String × List Cell :=
  ("INSERT INTO " ++ table ++ " (" ++ joinComma cols ++ ") VALUES "
      ++ joinComma (insertGroups cols rows),
   insertParams cols rows)

/-- The sql.js engine binding, treated as a black box (spec section 6):
`wasmOk` is whether the one-time runtime bootstrap (`initSqlJs`)
succeeds, `emptyStore` is the contents of `new Database()`, `execFn`
runs SQL against a store and yields the updated store plus the result
list or throws (`Except.error`), `exportFn` serializes a store to a
byte image, `importFn` is `new Database(bytes)` (`none` when the
constructor throws on invalid bytes). -/
structure Engine where
  wasmOk : Bool
  emptyStore : Nat
  execFn : Nat → String → List Cell → Except String (Nat × List QueryExecResult)
  exportFn : Nat → List Nat
  importFn : List Nat → Option Nat

/-- One live engine instance held in `this.db`: `id` is the object
identity (each `new Database(...)` yields a fresh one), `store` the
abstract database contents. -/
structure EngineInstance where
  id : Nat
  store : Nat
deriving DecidableEq, Repr

/-- The mutable state of a `SQLiteRepository` together with the slice
of the vault it touches: `db` is `this.db` (`none` before any
successful initialization), `isSaving` the self-write guard
`this.#isSaving`, `nextId` the supply of fresh instance identities,
`disk` the bytes of the vault file at `this.#dbFilePath` (`none` when
the file does not exist), `dirExists` whether the data folder exists. -/
structure RepoState where
  dbFilePath : String
  schema : String
  isSaving : Bool
  db : Option EngineInstance
  nextId : Nat
  disk : Option (List Nat)
  dirExists : Bool
deriving DecidableEq, Repr

/-- A host file-change notification `(path, deletedFlag)` as delivered
to `handleFileChange`. -/
structure FileEvent where
  path : String
  deleted : Bool
deriving DecidableEq, Repr

/-- `SQLiteRepository.dbExists`: false when the data folder is missing,
otherwise whether the database file is found in the vault. -/
def dbExists (s : RepoState) : Bool :=
  s.dirExists && s.disk.isSome

/-- `SQLiteRepository.save(true)` (the "creating" variant used by
`initDb`, which skips the existence check): guard the uninitialized
case, set the self-write guard, export the byte image, ensure the data
folder, write the file. Separated out so that the `save` ↔ `initDb`
recursion is stratified; `save` with `creating = true` below is exactly
this function. -/
def saveCreating (E : Engine) (s : RepoState) : Except String RepoState :=
  match s.db with
  | none => .error "Database was not initialized on repository"
  | some inst =>
      .ok { s with isSaving := true, dirExists := true,
                   disk := some (E.exportFn inst.store) }

/-- `SQLiteRepository.initDb`: bootstrap the runtime, create a fresh
engine, apply the schema DDL, then `save(true)`; any error is caught
(logged) and `null` is returned — note that when the schema `exec`
throws, `this.db` has already been assigned the fresh instance.
Returns the updated state and the `Database | null` result. -/
def initDb (E : Engine) (s : RepoState) : RepoState × Option EngineInstance :=
  if E.wasmOk = false then (s, none)
  else
    let inst0 : EngineInstance := ⟨s.nextId, E.emptyStore⟩
    let s1 := { s with db := some inst0, nextId := s.nextId + 1 }
    match E.execFn E.emptyStore s.schema [] with
    | .error _ => (s1, none)
    | .ok (store1, _) =>
        let s2 := { s1 with db := some ⟨inst0.id, store1⟩ }
        match saveCreating E s2 with
        | .error _ => (s2, none)
        | .ok s3 => (s3, some ⟨inst0.id, store1⟩)

/-- `SQLiteRepository.save` (the `creating = false` case; see
`saveCreating` for `creating = true`): guard the uninitialized case,
set the self-write guard *before* anything touches the file system,
export the byte image, re-create the database via `initDb` when the
file has disappeared, ensure the data folder, then overwrite the file
wholesale with the exported image. In the second source copy a write
failure is re-thrown, in the first it is swallowed; the modelled vault
write always succeeds, so the two copies coincide here. -/
def save (E : Engine) (creating : Bool) (s : RepoState) :
    Except String RepoState :=
  if creating then saveCreating E s
  else
    match s.db with
    | none => .error "Database was not initialized on repository"
    | some inst =>
        let s1 := { s with isSaving := true }
        let data := E.exportFn inst.store
        let s2 := if dbExists s1 then s1 else (initDb E s1).1
        .ok { s2 with dirExists := true, disk := some data }

/-- `SQLiteRepository.reloadDb`: bootstrap the runtime if needed, read
the file's bytes, import them into a brand-new engine instance that
replaces `this.db` wholesale; any error (missing file, invalid bytes,
failed bootstrap) is caught and `null` returned with the state
untouched. -/
def reloadDb (E : Engine) (s : RepoState) : RepoState × Option EngineInstance :=
  if E.wasmOk = false then (s, none)
  else
    match s.disk with
    | none => (s, none)
    | some bytes =>
        match E.importFn bytes with
        | none => (s, none)
        | some store =>
            let inst : EngineInstance := ⟨s.nextId, store⟩
            ({ s with db := some inst, nextId := s.nextId + 1 }, some inst)

/-- `SQLiteRepository.updateSchema`: re-apply the schema DDL to the
live engine and `save()`; not guarded by a try/catch of its own (its
exceptions propagate to `loadDb`). -/
def updateSchema (E : Engine) (s : RepoState) : Except String RepoState :=
  match s.db with
  | none => .error "TypeError: this.db is undefined"
  | some inst =>
      match E.execFn inst.store s.schema [] with
      | .error e => .error e
      | .ok (store1, _) => save E false { s with db := some ⟨inst.id, store1⟩ }

/-- `SQLiteRepository.loadDb`: `reloadDb`, bail out with `null` when it
failed, then `updateSchema` (whose exceptions the surrounding try/catch
turns into `null` as well). -/
def loadDb (E : Engine) (s : RepoState) : RepoState × Option EngineInstance :=
  match reloadDb E s with
  | (s1, none) => (s1, none)
  | (s1, some _) =>
      match updateSchema E s1 with
      | .error _ => (s1, none)
      | .ok s2 => (s2, s2.db)

/-- The vault contents `start` finds: the database file's bytes (or
`none`) and whether the data folder exists. -/
structure Vault where
  disk : Option (List Nat)
  dirExists : Bool
deriving DecidableEq, Repr

/-- The state of a freshly constructed `SQLiteRepository` over a vault:
no engine yet, self-write guard down. -/
def initialState (dbFilePath schema : String) (v : Vault) : RepoState :=
  { dbFilePath := dbFilePath, schema := schema, isSaving := false,
    db := none, nextId := 0, disk := v.disk, dirExists := v.dirExists }

/-- `SQLiteRepository.start`: construct, then load the database file if
it exists — throwing when `loadDb` yields `null` — or else call
`initDb`, whose result is not checked; finally register the change
listener (not modelled: the subscription itself has no state here) and
return the repository. -/
def start (E : Engine) (dbFilePath schema : String) (v : Vault) :
    Except String RepoState :=
  let repo := initialState dbFilePath schema v
  if dbExists repo then
    match loadDb E repo with
    | (_, none) =>
        .error ("Db file found at " ++ dbFilePath ++ ", but failed to load")
    | (s1, some _) => .ok s1
  else
    .ok (initDb E repo).1

/-- `SQLiteRepository.handleFileChange`: ignore notifications for other
paths and deletions; if the self-write guard is set, clear it and skip
the reload; otherwise reload from disk. -/
def handleFileChange (E : Engine) (ev : FileEvent) (s : RepoState) :
    RepoState :=
  if ev.path ≠ s.dbFilePath ∨ ev.deleted = true then s
  else if s.isSaving then { s with isSaving := false }
  else (reloadDb E s).1

/-- `SQLiteRepository.execSql`: coerce the parameters, run
`this.db.exec`, return `[[]]` when the result list is empty, otherwise
map `formatResult` over it; any thrown error (including `this.db` being
undefined) is caught, logged and degraded to `[[]]`. The two source
copies differ only in what they log. Returns the updated state and the
value `execSql` resolves with. -/
def execSql (E : Engine) (s : RepoState) (query : String)
    (params : List Primitive) : RepoState × List (List Obj) :=
  match s.db with
  | none => (s, [[]])
  | some inst =>
      match E.execFn inst.store query (coerceParams params) with
      | .error _ => (s, [[]])
      | .ok (store1, results) =>
          let s1 := { s with db := some ⟨inst.id, store1⟩ }
          if results.length = 0 then (s1, [[]])
          else (s1, results.map formatResult)

/-- `SQLiteRepository.query`: `execSql`, then `result[0]` — JS indexing,
so `none` would model `undefined` if the array were empty. -/
def query (E : Engine) (s : RepoState) (q : String)
    (params : List Primitive) : RepoState × Option (List Obj) :=
  let r := execSql E s q params
  (r.1, r.2.get? 0)

/-- `SQLiteRepository.mutate`: `execSql`, then an unconditional
`save()`, resolving with `execSql`'s value (a thrown save error
propagates). -/
def mutate (E : Engine) (s : RepoState) (query : String)
    (params : List Primitive) : Except String (RepoState × List (List Obj)) :=
  let r := execSql E s query params
  match save E false r.1 with
  | .error e => .error e
  | .ok s2 => .ok (s2, r.2)

/-- A sample engine whose `exec` always throws, to evaluate theorems at
concrete inputs. -/
def failingEngine : Engine :=
  { wasmOk := true, emptyStore := 0,
    execFn := fun _ _ _ => .error "syntax error",
    exportFn := fun st => [st],
    importFn := fun _ => some 0 }

/-- A sample engine whose runtime bootstrap fails, to evaluate theorems
at concrete inputs. -/
def deadEngine : Engine :=
  { wasmOk := false, emptyStore := 0,
    execFn := fun _ _ _ => .error "wasm not loaded",
    exportFn := fun _ => [],
    importFn := fun _ => none }

/-- A sample well-behaved engine: `exec` succeeds with no returned
rows, import accepts any byte image. -/
def benignEngine : Engine :=
  { wasmOk := true, emptyStore := 0,
    execFn := fun st _ _ => .ok (st, []),
    exportFn := fun st => [st],
    importFn := fun b => some (b.headD 0) }

/-- A sample ready repository state: engine loaded, file and folder
present, self-write guard down. -/
def readyState : RepoState :=
  { dbFilePath := "increading/data/srs.sqlite",
    schema := "CREATE TABLE IF NOT EXISTS snippet (reference TEXT);",
    isSaving := false, db := some ⟨0, 0⟩, nextId := 1,
    disk := some [0], dirExists := true }

/-- `readyState` right after a completed `save()`: the self-write guard
is up and the file holds the freshly exported image. -/
def savedState : RepoState :=
  { dbFilePath := "increading/data/srs.sqlite",
    schema := "CREATE TABLE IF NOT EXISTS snippet (reference TEXT);",
    isSaving := true, db := some ⟨0, 0⟩, nextId := 1,
    disk := some [0], dirExists := true }

end IncrementalReading

namespace IncrementalReading

/-- Claim C7: value coercion maps each input element by its runtime
type — boolean to 1/0, symbol to its string representation, undefined
to null, string/number/null passed through — preserving the length and
order of the input list; in particular
`coerce([true, false, undefined, Symbol('x')])` is
`[1, 0, null, "Symbol(x)"]`. -/
theorem coerceParams_spec :
    (∀ ps : List Primitive, (coerceParams ps).length = ps.length) ∧
    (∀ ps : List Primitive, ∀ i : Nat,
      (coerceParams ps).get? i = (ps.get? i).map coerceOne) ∧
    (∀ b, coerceOne (.bool b) = .num (if b then 1 else 0)) ∧
    (∀ s, coerceOne (.sym s) = .str ("Symbol(" ++ s ++ ")")) ∧
    (coerceOne .undef = .null) ∧
    (∀ s, coerceOne (.str s) = .str s) ∧
    (∀ n, coerceOne (.num n) = .num n) ∧
    (coerceOne .null = .null) ∧
    coerceParams [.bool true, .bool false, .undef, .sym "x"]
      = [.num 1, .num 0, .null, .str "Symbol(x)"] := by
  refine ⟨fun ps => ?_, fun ps i => ?_, fun b => rfl, fun s => rfl, rfl,
    fun s => rfl, fun n => rfl, rfl, rfl⟩
  · simp [coerceParams]
  · simp [coerceParams]

/-- Claim C3: every comparator call appends a condition whose
placeholder index is the length of the bind-parameter list plus one at
the moment of the call and then pushes the compare value; consequently
the chain `where(c1).eq(v1).and(c2).eq(v2)`, started from the empty
builder state, emits exactly the placeholders `$1` and `$2` in call
order and accumulates the parameter list `[v1, v2]`. -/
theorem createCondition_positional (column comparator : String)
    (conjunction : Conjunction) (st st' : BuilderState) (compareValue : Cell)
    (h : createCondition column conjunction st comparator compareValue
      = Except.ok st') :
    (st'.params = st.params ++ [compareValue] ∧
      condStrings st'.conditions = condStrings st.conditions ++
        [column ++ " " ++ comparator ++ " $" ++ Nat.repr (st.params.length + 1)]) ∧
    (∀ c1 c2 : String, ∀ v1 v2 : Cell,
      (createCondition c1 Conjunction.WHERE ⟨[], none⟩ "=" v1).bind
          (fun st1 => createCondition c2 Conjunction.AND st1 "=" v2)
        = Except.ok ⟨[v1, v2],
            some (c1 ++ " = $1", [(Conjunction.AND, c2 ++ " = $2")])⟩) := by
  constructor
  · cases conjunction with
    | WHERE =>
        cases hc : st.conditions with
        | none =>
            simp [createCondition, hc] at h
            subst h
            simp [condStrings, hc]
        | some c =>
            simp [createCondition, hc] at h
    | AND =>
        cases hc : st.conditions with
        | none =>
            simp [createCondition, hc] at h
        | some c =>
            obtain ⟨first, rest⟩ := c
            simp [createCondition, hc] at h
            subst h
            simp [condStrings, hc]
    | OR =>
        cases hc : st.conditions with
        | none =>
            simp [createCondition, hc] at h
        | some c =>
            obtain ⟨first, rest⟩ := c
            simp [createCondition, hc] at h
            subst h
            simp [condStrings, hc]
  · intro c1 c2 v1 v2
    simp [createCondition, Except.bind]
    constructor
    · rw [String.append_assoc, String.append_assoc, String.append_assoc]
      exact congrArg (fun t => c1 ++ t) (by decide)
    · rw [String.append_assoc, String.append_assoc, String.append_assoc]
      exact congrArg (fun t => c2 ++ t) (by decide)

/-- Witness for C3 at a concrete call: `where('reference').eq('test.md')`
from the empty builder state. -/
theorem createCondition_positional_witness :
    (BuilderState.mk [Cell.str "test.md"] (some ("reference = $1", []))).params
        = ([] : List Cell) ++ [Cell.str "test.md"] ∧
      condStrings (BuilderState.mk [Cell.str "test.md"]
          (some ("reference = $1", []))).conditions
        = condStrings (none : Option (String × List (Conjunction × String))) ++
          ["reference" ++ " " ++ "=" ++ " $" ++ Nat.repr (0 + 1)] :=
  (createCondition_positional "reference" "=" Conjunction.WHERE
    ⟨[], none⟩ ⟨[Cell.str "test.md"], some ("reference = $1", [])⟩
    (Cell.str "test.md") rfl).1

/-- Claim C4: builder misuse fails fast — a WHERE-tagged condition when
a condition tree already exists yields the construction error, and an
AND- or OR-tagged condition with no condition tree yields the
construction error; in both cases `createCondition` returns the error
(nothing is caught internally) and no updated builder state is
produced. -/
theorem createCondition_misuse_fails (column comparator : String)
    (stFull stEmpty : BuilderState) (compareValue : Cell)
    (hFull : stFull.conditions.isSome = true)
    (hEmpty : stEmpty.conditions = none) :
    createCondition column Conjunction.WHERE stFull comparator compareValue
        = Except.error "WHERE should not be called multiple times in one query" ∧
    createCondition column Conjunction.AND stEmpty comparator compareValue
        = Except.error
            "AND or OR called without a preexisting WHERE; this shouldn't happen." ∧
    createCondition column Conjunction.OR stEmpty comparator compareValue
        = Except.error
            "AND or OR called without a preexisting WHERE; this shouldn't happen." := by
  obtain ⟨c, hc⟩ := Option.isSome_iff_exists.mp hFull
  refine ⟨?_, ?_, ?_⟩ <;> simp [createCondition, hc, hEmpty]

/-- Witness for C4 at concrete builder states: a state already holding
`reference = $1`, and the empty state. -/
theorem createCondition_misuse_fails_witness :
    createCondition "due" Conjunction.WHERE
        ⟨[Cell.str "test.md"], some ("reference = $1", [])⟩ "=" (Cell.num 3)
        = Except.error "WHERE should not be called multiple times in one query" ∧
    createCondition "due" Conjunction.AND ⟨[], none⟩ "=" (Cell.num 3)
        = Except.error
            "AND or OR called without a preexisting WHERE; this shouldn't happen." ∧
    createCondition "due" Conjunction.OR ⟨[], none⟩ "=" (Cell.num 3)
        = Except.error
            "AND or OR called without a preexisting WHERE; this shouldn't happen." :=
  createCondition_misuse_fails "due" "="
    ⟨[Cell.str "test.md"], some ("reference = $1", [])⟩ ⟨[], none⟩
    (Cell.num 3) (by decide) (by decide)


theorem objLookup_cons (k a : String) (b : Cell) (rest : Obj) :
    objLookup k ((a, b) :: rest) = if k = a then some b else objLookup k rest :=
  rfl

theorem overwriteEntry_self (k : String) (v b : Cell) :
    overwriteEntry k v (k, b) = (k, v) := by
  simp [overwriteEntry]

theorem overwriteEntry_other (k : String) (v : Cell) (a : String) (b : Cell)
    (h : a ≠ k) : overwriteEntry k v (a, b) = (a, b) := by
  simp [overwriteEntry, h]

theorem objLookup_map_overwrite (k : String) (v : Cell) :
    ∀ acc : Obj,
      objLookup k (acc.map (overwriteEntry k v))
        = if acc.any (fun p => decide (p.1 = k)) then some v else none
  | [] => by simp [objLookup]
  | (a, b) :: rest => by
      by_cases hp : a = k
      · subst hp
        rw [List.map_cons, overwriteEntry_self, objLookup_cons, if_pos rfl]
        simp
      · rw [List.map_cons, overwriteEntry_other k v a b hp, objLookup_cons,
          if_neg (Ne.symm hp), objLookup_map_overwrite k v rest,
          List.any_cons]
        rw [show (decide (a = k)) = false from decide_eq_false hp, Bool.false_or]

theorem objLookup_map_untouched (k k' : String) (v : Cell) (h : k' ≠ k) :
    ∀ acc : Obj,
      objLookup k' (acc.map (overwriteEntry k v)) = objLookup k' acc
  | [] => rfl
  | (a, b) :: rest => by
      by_cases hp : a = k
      · subst hp
        rw [List.map_cons, overwriteEntry_self, objLookup_cons, objLookup_cons,
          if_neg h, if_neg h]
        exact objLookup_map_untouched _ _ _ h rest
      · rw [List.map_cons, overwriteEntry_other k v a b hp, objLookup_cons,
          objLookup_cons]
        by_cases hk : k' = a
        · rw [if_pos hk, if_pos hk]
        · rw [if_neg hk, if_neg hk]
          exact objLookup_map_untouched _ _ _ h rest

theorem objLookup_of_not_any (k : String) :
    ∀ acc : Obj, acc.any (fun p => decide (p.1 = k)) = false →
      objLookup k acc = none
  | [], _ => rfl
  | (a, b) :: rest, h => by
      simp only [List.any_cons, Bool.or_eq_false_iff,
        decide_eq_false_iff_not] at h
      rw [objLookup_cons, if_neg (Ne.symm h.1)]
      exact objLookup_of_not_any k rest h.2

theorem objLookup_append_single (k k' : String) (v : Cell) :
    ∀ acc : Obj,
      objLookup k' (acc ++ [(k, v)])
        = if k' = k then some ((objLookup k' acc).getD v)
          else objLookup k' acc
  | [] => by
      by_cases h : k' = k
      · rw [List.nil_append, objLookup_cons, if_pos h, if_pos h]
        rfl
      · rw [List.nil_append, objLookup_cons, if_neg h, if_neg h]
  | (a, b) :: rest => by
      by_cases hp : k' = a
      · simp [objLookup_cons, hp]
      · rw [List.cons_append, objLookup_cons, if_neg hp,
          objLookup_append_single k k' v rest, objLookup_cons, if_neg hp]

theorem objLookup_objInsert_self (acc : Obj) (k : String) (v : Cell) :
    objLookup k (objInsert acc k v) = some v := by
  unfold objInsert
  by_cases h : acc.any (fun p => decide (p.1 = k)) = true
  · simp [h, objLookup_map_overwrite]
  · have hf : acc.any (fun p => decide (p.1 = k)) = false := by
      cases hb : acc.any (fun p => decide (p.1 = k))
      · rfl
      · exact absurd hb h
    simp [hf, objLookup_append_single, objLookup_of_not_any k acc hf]

theorem objLookup_objInsert_ne (acc : Obj) (k k' : String) (v : Cell)
    (h : k' ≠ k) :
    objLookup k' (objInsert acc k v) = objLookup k' acc := by
  unfold objInsert
  by_cases hany : acc.any (fun p => decide (p.1 = k)) = true
  · simp [hany, objLookup_map_untouched k k' v h acc]
  · have hf : acc.any (fun p => decide (p.1 = k)) = false := by
      cases hb : acc.any (fun p => decide (p.1 = k))
      · rfl
      · exact absurd hb hany
    simp [hf, objLookup_append_single, h]

theorem rowReduce_lookup_unused (columns : List String) :
    ∀ (row : List Cell) (i : Nat) (acc : Obj) (k : String),
      (∀ m, m < row.length → keyAt columns (i + m) ≠ k) →
      objLookup k (rowReduce columns row i acc) = objLookup k acc
  | [], _, _, _, _ => rfl
  | cell :: rest, i, acc, k, h => by
      have h0 : keyAt columns i ≠ k := by
        have := h 0 (Nat.succ_pos _)
        simpa using this
      have hrest : ∀ m, m < rest.length → keyAt columns ((i + 1) + m) ≠ k := by
        intro m hm
        have := h (m + 1) (by simpa using Nat.succ_lt_succ hm)
        rwa [show i + (m + 1) = (i + 1) + m by omega] at this
      rw [rowReduce, rowReduce_lookup_unused columns rest (i + 1) _ k hrest,
        objLookup_objInsert_ne _ _ _ _ (Ne.symm h0)]

theorem rowReduce_lookup_last (columns : List String) :
    ∀ (row : List Cell) (i : Nat) (acc : Obj) (ci : Nat),
      ci < row.length →
      (∀ j, ci < j → j < row.length →
        keyAt columns (i + j) ≠ keyAt columns (i + ci)) →
      objLookup (keyAt columns (i + ci)) (rowReduce columns row i acc)
        = row.get? ci
  | [], _, _, ci, hci, _ => absurd hci (Nat.not_lt_zero ci)
  | cell :: rest, i, acc, 0, _, hlast => by
      have hrest : ∀ m, m < rest.length →
          keyAt columns ((i + 1) + m) ≠ keyAt columns (i + 0) := by
        intro m hm
        have := hlast (m + 1) (Nat.succ_pos _) (by simpa using Nat.succ_lt_succ hm)
        rwa [show i + (m + 1) = (i + 1) + m by omega] at this
      rw [rowReduce,
        rowReduce_lookup_unused columns rest (i + 1) _ _ hrest]
      rw [show i + 0 = i by omega]
      exact objLookup_objInsert_self acc (keyAt columns i) cell
  | cell :: rest, i, acc, m + 1, hci, hlast => by
      have hrest : ∀ j, m < j → j < rest.length →
          keyAt columns ((i + 1) + j) ≠ keyAt columns ((i + 1) + m) := by
        intro j hj hjl
        have := hlast (j + 1) (Nat.succ_lt_succ hj)
          (by simpa using Nat.succ_lt_succ hjl)
        rwa [show i + (j + 1) = (i + 1) + j by omega,
          show i + (m + 1) = (i + 1) + m by omega] at this
      rw [rowReduce, show i + (m + 1) = (i + 1) + m by omega,
        rowReduce_lookup_last columns rest (i + 1) _ m
          (Nat.lt_of_succ_lt_succ hci) hrest]
      rfl

/-- Claim C8: for every engine result, `formatResult` returns one row
object per value row in the same row order (no row reordered or
dropped), each row object maps each column name to the cell at that
column's index, and when the same column name appears twice the later
cell's value overwrites the earlier one — so looking up the name of any
column that has no later duplicate yields exactly the cell at that
column's index. -/
theorem formatResult_spec (columns : List String) (values : List (List Cell))
    (hlen : ∀ row ∈ values, row.length = columns.length) :
    (formatResult ⟨columns, values⟩).length = values.length ∧
    (∀ ri : Nat, (formatResult ⟨columns, values⟩).get? ri
      = (values.get? ri).map (formatRow columns)) ∧
    (∀ ri ci : Nat, ri < values.length → ci < columns.length →
      (∀ j, ci < j → j < columns.length → columns.get? j ≠ columns.get? ci) →
      objLookup (keyAt columns ci)
          ((formatResult ⟨columns, values⟩).getD ri [])
        = (values.getD ri []).get? ci) := by
  refine ⟨by simp [formatResult], fun ri => by simp [formatResult], ?_⟩
  intro ri ci hri hci hnodup
  have hrow : (formatResult ⟨columns, values⟩).getD ri []
      = formatRow columns (values.getD ri []) := by
    have hri' : ri < (formatResult ⟨columns, values⟩).length := by
      simpa [formatResult] using hri
    rw [List.getD_eq_getElem _ _ hri', List.getD_eq_getElem _ _ hri]
    simp [formatResult]
  rw [hrow]
  have hmem : values.getD ri [] ∈ values := by
    rw [List.getD_eq_getElem _ _ hri]
    apply List.getElem_mem
  have hrowlen : (values.getD ri []).length = columns.length :=
    hlen _ hmem
  have hlast : ∀ j, ci < j → j < (values.getD ri []).length →
      keyAt columns (0 + j) ≠ keyAt columns (0 + ci) := by
    intro j hj hjl
    rw [Nat.zero_add, Nat.zero_add]
    intro hkey
    apply hnodup j hj (hrowlen ▸ hjl)
    have hjc : j < columns.length := hrowlen ▸ hjl
    have hkj : keyAt columns j = columns[j] := by
      simp [keyAt, List.get?_eq_getElem?, List.getElem?_eq_getElem hjc]
    have hkc : keyAt columns ci = columns[ci] := by
      simp [keyAt, List.get?_eq_getElem?, List.getElem?_eq_getElem hci]
    rw [List.get?_eq_getElem?, List.get?_eq_getElem?,
      List.getElem?_eq_getElem hjc, List.getElem?_eq_getElem hci]
    exact congrArg some (by rw [← hkj, ← hkc, hkey])
  have := rowReduce_lookup_last columns (values.getD ri []) 0 [] ci
    (hrowlen ▸ hci) hlast
  rw [Nat.zero_add] at this
  unfold formatRow
  exact this

/-- Witness for C8 at the spec's concrete example:
`{columns: ['a','b'], values: [[1,'x'],[2,'y']]}` keeps both rows and
maps `'a'` of the second row to `2`. -/
theorem formatResult_spec_witness :
    (formatResult ⟨["a", "b"], [[Cell.num 1, Cell.str "x"],
        [Cell.num 2, Cell.str "y"]]⟩).length = 2 ∧
    objLookup (keyAt ["a", "b"] 0)
        ((formatResult ⟨["a", "b"], [[Cell.num 1, Cell.str "x"],
          [Cell.num 2, Cell.str "y"]]⟩).getD 1 [])
      = some (Cell.num 2) := by
  have h := formatResult_spec ["a", "b"]
    [[Cell.num 1, Cell.str "x"], [Cell.num 2, Cell.str "y"]]
    (by intro row hrow; fin_cases hrow <;> rfl)
  refine ⟨h.1, ?_⟩
  have h2 := h.2.2 1 0 (by decide) (by decide) (by
    intro j hj hjl
    have hj1 : j = 1 := by
      simp only [List.length_cons, List.length_nil] at hjl
      omega
    subst hj1
    decide)
  rw [h2]
  rfl

theorem execSql_state (E : Engine) (s : RepoState) (q : String)
    (p : List Primitive) :
    (execSql E s q p).1.disk = s.disk ∧
    (execSql E s q p).1.isSaving = s.isSaving ∧
    (execSql E s q p).1.dbFilePath = s.dbFilePath ∧
    (execSql E s q p).1.nextId = s.nextId ∧
    (execSql E s q p).1.dirExists = s.dirExists ∧
    (∀ inst, s.db = some inst →
      ∃ inst1, (execSql E s q p).1.db = some inst1) := by
  cases hdb : s.db with
  | none => simp [execSql, hdb]
  | some inst =>
      cases hE : E.execFn inst.store q (coerceParams p) with
      | error e => simp [execSql, hdb, hE]
      | ok r =>
          obtain ⟨store1, results⟩ := r
          by_cases hr : results.length = 0
          · simp [execSql, hdb, hE, hr]
          · simp [execSql, hdb, hE, hr]

theorem save_false_ok (E : Engine) (s : RepoState) (inst : EngineInstance)
    (hdb : s.db = some inst) :
    ∃ s2, save E false s = Except.ok s2 ∧
      s2.isSaving = true ∧
      s2.disk = some (E.exportFn inst.store) ∧
      s2.dbFilePath = s.dbFilePath ∧
      ∃ inst2, s2.db = some inst2 ∧
        (inst2.id < s2.nextId ∨ (inst2 = inst ∧ s2.nextId = s.nextId)) := by
  by_cases hex : (s.dirExists && s.disk.isSome) = true
  · refine ⟨{ s with
        isSaving := true
        dirExists := true
        disk := some (E.exportFn inst.store) },
      by simp [save, dbExists, hdb, hex], rfl, rfl, rfl,
      ⟨inst, by simp [hdb], Or.inr ⟨rfl, rfl⟩⟩⟩
  · have hex' : (s.dirExists && s.disk.isSome) = false := by
      cases hb : (s.dirExists && s.disk.isSome)
      · rfl
      · exact absurd hb hex
    by_cases hw : E.wasmOk = true
    · cases hE : E.execFn E.emptyStore s.schema [] with
      | error e =>
          refine ⟨{ s with
              isSaving := true
              db := some ⟨s.nextId, E.emptyStore⟩
              nextId := s.nextId + 1
              dirExists := true
              disk := some (E.exportFn inst.store) },
            by simp [save, dbExists, initDb, hdb, hex', hw, hE], rfl, rfl, rfl,
            ⟨⟨s.nextId, E.emptyStore⟩, rfl, Or.inl (by simp)⟩⟩
      | ok r =>
          obtain ⟨store1, results⟩ := r
          refine ⟨{ s with
              isSaving := true
              db := some ⟨s.nextId, store1⟩
              nextId := s.nextId + 1
              dirExists := true
              disk := some (E.exportFn inst.store) },
            by simp [save, dbExists, initDb, saveCreating, hdb, hex', hw, hE],
            rfl, rfl,
            rfl, ⟨⟨s.nextId, store1⟩, rfl, Or.inl (by simp)⟩⟩
    · have hw' : E.wasmOk = false := by
        cases hb : E.wasmOk
        · rfl
        · exact absurd hb hw
      refine ⟨{ s with
          isSaving := true
          dirExists := true
          disk := some (E.exportFn inst.store) },
        by simp [save, dbExists, initDb, hdb, hex', hw'], rfl, rfl, rfl,
        ⟨inst, by simp [hdb], Or.inr ⟨rfl, rfl⟩⟩⟩

/-- Claim C5: when the engine's `exec` throws, `execSql` catches the
error and returns the empty single-statement result `[[]]` with the
repository state untouched (nothing propagates — `execSql` is total);
and an engine call that succeeds with zero result sets produces the
very same `[[]]`, so callers cannot distinguish a failed statement from
a statement returning no rows. Both source copies of `execSql` share
this catch-and-degrade shape, differing only in what they log. -/
theorem execSql_swallows_errors (E : Engine) (s : RepoState) (q : String)
    (p : List Primitive) (inst : EngineInstance) (e : String)
    (hdb : s.db = some inst)
    (herr : E.execFn inst.store q (coerceParams p) = Except.error e) :
    execSql E s q p = (s, [[]]) ∧
    (∀ (F : Engine) (t : RepoState) (q' : String) (p' : List Primitive)
        (inst' : EngineInstance),
      t.db = some inst' →
      F.execFn inst'.store q' (coerceParams p') = Except.ok (inst'.store, []) →
      execSql F t q' p' = (t, [[]])) := by
  constructor
  · simp [execSql, hdb, herr]
  · intro F t q' p' inst' hdb' hok
    simp [execSql, hdb', hok]
    rw [← hdb']

/-- Witness for C5: a concrete failing engine call degrades to `[[]]`. -/
theorem execSql_swallows_errors_witness :
    execSql failingEngine readyState "DELETE FROM snippet" [] =
      (readyState, [[]]) :=
  (execSql_swallows_errors failingEngine readyState "DELETE FROM snippet" []
    ⟨0, 0⟩ "syntax error" rfl rfl).1

/-- Claim C10: `query` resolves with exactly the first statement's
formatted rows — later statements' results are computed by `execSql`
but discarded — and when `execSql` degrades to `[[]]` (engine error or
no result sets), `query` resolves with the empty array, never with
`undefined`. -/
theorem query_first_statement (E : Engine) (s : RepoState) (q : String)
    (p : List Primitive) (inst : EngineInstance) (hdb : s.db = some inst) :
    ((query E s q p).2.isSome = true) ∧
    (∀ store1 r1 rest, E.execFn inst.store q (coerceParams p)
        = Except.ok (store1, r1 :: rest) →
      (query E s q p).2 = some (formatResult r1)) ∧
    (∀ store1, E.execFn inst.store q (coerceParams p)
        = Except.ok (store1, []) →
      (query E s q p).2 = some []) ∧
    (∀ e, E.execFn inst.store q (coerceParams p) = Except.error e →
      (query E s q p).2 = some []) := by
  refine ⟨?_, ?_, ?_, ?_⟩
  · cases hE : E.execFn inst.store q (coerceParams p) with
    | error e => simp [query, execSql, hdb, hE]
    | ok r =>
        obtain ⟨store1, results⟩ := r
        cases results with
        | nil => simp [query, execSql, hdb, hE]
        | cons r1 rest => simp [query, execSql, hdb, hE]
  · intro store1 r1 rest hE
    simp [query, execSql, hdb, hE]
  · intro store1 hE
    simp [query, execSql, hdb, hE]
  · intro e hE
    simp [query, execSql, hdb, hE]

/-- Witness for C10: a concrete zero-result query resolves with `[]`. -/
theorem query_first_statement_witness :
    (query benignEngine readyState "SELECT reference FROM snippet" []).2
      = some [] :=
  (query_first_statement benignEngine readyState
    "SELECT reference FROM snippet" [] ⟨0, 0⟩ rfl).2.2.1 0 rfl

/-- Claim C6: `mutate` executes the SQL and then unconditionally
invokes `save`, which persists the engine's freshly exported byte image
and arms the self-write guard — this holds for every engine behavior,
including one whose `exec` throws and is swallowed by `execSql`; and
`query` never invokes `save`: it leaves the on-disk file and the
self-write guard exactly as they were. -/
theorem mutate_persists_query_pure (E : Engine) (s : RepoState) (q : String)
    (p : List Primitive) (inst : EngineInstance) (hdb : s.db = some inst) :
    (∃ s2 r inst1,
      mutate E s q p = Except.ok (s2, r) ∧
      s2.isSaving = true ∧
      (execSql E s q p).1.db = some inst1 ∧
      s2.disk = some (E.exportFn inst1.store)) ∧
    ((query E s q p).1.disk = s.disk ∧
     (query E s q p).1.isSaving = s.isSaving) := by
  have hst := execSql_state E s q p
  obtain ⟨inst1, hinst1⟩ := hst.2.2.2.2.2 inst hdb
  obtain ⟨s2, hs2, hsv, hdisk, -, -⟩ :=
    save_false_ok E (execSql E s q p).1 inst1 hinst1
  refine ⟨⟨s2, (execSql E s q p).2, inst1, ?_, hsv, hinst1, hdisk⟩, ?_, ?_⟩
  · simp [mutate, hs2]
  · simpa [query] using hst.1
  · simpa [query] using hst.2.1

/-- Witness for C6 at a concrete mutate/query pair over the sample
engine and ready state. -/
theorem mutate_persists_query_pure_witness :
    (∃ s2 r inst1,
      mutate benignEngine readyState
          "INSERT INTO snippet (reference) VALUES (?)" []
        = Except.ok (s2, r) ∧
      s2.isSaving = true ∧
      (execSql benignEngine readyState
          "INSERT INTO snippet (reference) VALUES (?)" []).1.db = some inst1 ∧
      s2.disk = some (benignEngine.exportFn inst1.store)) ∧
    ((query benignEngine readyState
        "INSERT INTO snippet (reference) VALUES (?)" []).1.disk
          = readyState.disk ∧
     (query benignEngine readyState
        "INSERT INTO snippet (reference) VALUES (?)" []).1.isSaving
          = readyState.isSaving) :=
  mutate_persists_query_pure benignEngine readyState
    "INSERT INTO snippet (reference) VALUES (?)" [] ⟨0, 0⟩ rfl

/-- Counterexample for C2: with a vault holding no database file and an
engine whose runtime bootstrap fails, `initDb` fails (returns `null`),
yet `start` resolves successfully — with a repository whose engine was
never initialized — instead of rejecting. -/
theorem start_init_failure_resolves :
    (initDb deadEngine (initialState "increading/data/srs.sqlite"
        "CREATE TABLE IF NOT EXISTS snippet (reference TEXT);"
        ⟨none, false⟩)).2 = none ∧
    start deadEngine "increading/data/srs.sqlite"
        "CREATE TABLE IF NOT EXISTS snippet (reference TEXT);" ⟨none, false⟩
      = Except.ok (initialState "increading/data/srs.sqlite"
          "CREATE TABLE IF NOT EXISTS snippet (reference TEXT);"
          ⟨none, false⟩) ∧
    (initialState "increading/data/srs.sqlite"
        "CREATE TABLE IF NOT EXISTS snippet (reference TEXT);"
        ⟨none, false⟩).db = none :=
  ⟨rfl, rfl, rfl⟩

/-- Claim C2 as amended: when the database file exists, a load failure
is surfaced to the caller of `start` as a hard failure (`start` rejects
exactly when `loadDb` yields `null`, with no fallback to a fresh
database); but when the file is absent, `start` calls `initDb` without
checking its result, so an initialization failure is swallowed and
`start` resolves normally. -/
theorem start_failure_surfacing (E : Engine) (p sch : String) (v : Vault) :
    (dbExists (initialState p sch v) = true →
      ((loadDb E (initialState p sch v)).2 = none ↔
        start E p sch v = Except.error
          ("Db file found at " ++ p ++ ", but failed to load"))) ∧
    (dbExists (initialState p sch v) = false →
      start E p sch v = Except.ok (initDb E (initialState p sch v)).1) := by
  constructor
  · intro hex
    cases hld : loadDb E (initialState p sch v) with
    | mk s1 r =>
        cases r with
        | none => simp [start, hex, hld]
        | some i => simp [start, hex, hld]
  · intro hex
    simp [start, hex]

/-- Claim C1: after a completed `save` (which arms the self-write
guard), the first `handleFileChange` notification for the repository's
own database file path clears the guard and performs no reload — the
in-memory engine instance is unchanged; a second notification for the
same path, arriving with the guard already down, triggers a reload that
replaces the engine instance with a fresh one. -/
theorem selfWriteSuppression (E : Engine) (s0 s1 : RepoState)
    (inst : EngineInstance) (hdb : s0.db = some inst)
    (hwf : inst.id < s0.nextId)
    (hsave : save E false s0 = Except.ok s1)
    (hwasm : E.wasmOk = true)
    (himp : ∀ b, s1.disk = some b → (E.importFn b).isSome = true) :
    handleFileChange E ⟨s1.dbFilePath, false⟩ s1
        = { s1 with isSaving := false } ∧
    (handleFileChange E ⟨s1.dbFilePath, false⟩ s1).db = s1.db ∧
    (handleFileChange E ⟨s1.dbFilePath, false⟩
        (handleFileChange E ⟨s1.dbFilePath, false⟩ s1)).db ≠ s1.db := by
  obtain ⟨s2, hs2, hsv, hdisk, hpath, inst2, hdb2, hor⟩ :=
    save_false_ok E s0 inst hdb
  have h12 : s1 = s2 := Except.ok.inj (hsave.symm.trans hs2)
  subst h12
  have hlt : inst2.id < s1.nextId := by
    cases hor with
    | inl h => exact h
    | inr h => rw [h.1, h.2]; exact hwf
  have hfc1 : handleFileChange E ⟨s1.dbFilePath, false⟩ s1
      = { s1 with isSaving := false } := by
    simp [handleFileChange, hsv]
  refine ⟨hfc1, by rw [hfc1], ?_⟩
  rw [hfc1]
  obtain ⟨st, hst⟩ := Option.isSome_iff_exists.mp
    (himp (E.exportFn inst.store) hdisk)
  have hfc2 : handleFileChange E ⟨s1.dbFilePath, false⟩
      { s1 with isSaving := false }
      = (reloadDb E { s1 with isSaving := false }).1 := by
    simp [handleFileChange]
  rw [hfc2]
  simp [reloadDb, hwasm, hdisk, hst, hdb2]
  intro heq
  have hid : s1.nextId = inst2.id := congrArg EngineInstance.id heq
  omega

/-- Witness for C1 at the sample engine: the saved state's guard eats
the first notification, the second replaces the engine instance. -/
theorem selfWriteSuppression_witness :
    (handleFileChange benignEngine ⟨savedState.dbFilePath, false⟩
        (handleFileChange benignEngine ⟨savedState.dbFilePath, false⟩
          savedState)).db
      ≠ savedState.db :=
  (selfWriteSuppression benignEngine readyState savedState ⟨0, 0⟩ rfl
    (by decide) rfl rfl
    (by
      intro b hb
      simp only [savedState] at hb
      simp only [Option.some.injEq] at hb
      subst hb
      rfl)).2.2

theorem count_joinComma_replicate :
    ∀ k : Nat,
      ((joinComma (List.replicate k "?")).toList.count '?') = k
  | 0 => rfl
  | 1 => rfl
  | (k + 2) => by
      have hrw : joinComma (List.replicate (k + 2) "?")
          = "?" ++ ", " ++ joinComma (List.replicate (k + 1) "?") := rfl
      have hsplit : (("?" ++ ", " ++ joinComma (List.replicate (k + 1) "?")).toList)
          = '?' :: ',' :: ' ' :: (joinComma (List.replicate (k + 1) "?")).toList := rfl
      rw [hrw, hsplit]
      simp [List.count_cons]
      exact count_joinComma_replicate (k + 1)

theorem count_placeholderGroup (k : Nat) :
    ((placeholderGroup k).toList.count '?') = k := by
  have hsplit : (placeholderGroup k).toList
      = '(' :: ((joinComma (List.replicate k "?")).toList ++ [')']) := rfl
  rw [hsplit]
  simp [List.count_cons, List.count_append]
  exact count_joinComma_replicate k

theorem insertParams_length (cols : List String) :
    ∀ rows : List Obj,
      (insertParams cols rows).length = rows.length * cols.length
  | [] => by simp [insertParams]
  | row :: rest => by
      have hrw : insertParams cols (row :: rest)
          = cols.map (fun c => (objLookup c row).getD Cell.null)
            ++ insertParams cols rest := rfl
      rw [hrw, List.length_append, List.length_map,
        insertParams_length cols rest, List.length_cons, Nat.succ_mul,
        Nat.add_comm]

/-- Claim C9 (spec-modelled: the INSERT builder's implementation is not
among the repository's given files; this settles the claim against the
definitions modelled from the spec and the INSERT test): an INSERT
built with K declared columns and N value rows emits exactly N
parenthesized placeholder groups of K placeholders each, and its
parameter list has length N·K, flattened row-major in declared column
order; concretely, two rows over `(reference, due)` on `snippet` build
`INSERT INTO snippet (reference, due) VALUES (?, ?), (?, ?)` with the
four values in row-major order. -/
theorem insertBuild_shape (table : String) (cols : List String)
    (rows : List Obj) :
    (insertGroups cols rows).length = rows.length ∧
    (∀ g ∈ insertGroups cols rows, (g.toList.count '?') = cols.length) ∧
    (insertBuild table cols rows).2.length = rows.length * cols.length ∧
    (insertBuild table cols rows).2
      = (rows.map (fun row =>
          cols.map (fun c => (objLookup c row).getD Cell.null))).flatten ∧
    (∀ a b c d : Cell,
      insertBuild "snippet" ["reference", "due"]
          [[("reference", a), ("due", b)], [("reference", c), ("due", d)]]
        = ("INSERT INTO snippet (reference, due) VALUES (?, ?), (?, ?)",
           [a, b, c, d])) := by
  refine ⟨by simp [insertGroups], ?_, insertParams_length cols rows, rfl, ?_⟩
  · intro g hg
    simp only [insertGroups, List.mem_map] at hg
    obtain ⟨-, -, hgeq⟩ := hg
    rw [← hgeq]
    exact count_placeholderGroup cols.length
  · intro a b c d
    rfl

end IncrementalReading

